import Mathlib

/-!
Verification of a minimal CTF (capture-the-flag) backend.

The service exposes four operations over a document store:
challenge listing, flag submission, a leaderboard aggregation, and a
startup seeding routine.  We embed the handlers of `main.py` (and the
data shapes of `schemas.py`) as pure Lean functions: the store handle
becomes an `Option` (the code only checks `db is None`), exceptions of
the store become explicit failure flags or `Except` values, and Python
dictionaries become association lists with unique keys.
-/

namespace CTF

/-- Python `str.strip` whitespace class restricted to the ASCII range
(space, tab, newline, carriage return, vertical tab, form feed). -/
def isPySpace (c : Char) : Bool :=
  c = ' ' || c = '\t' || c = '\n' || c = '\r' || c = Char.ofNat 11 || c = Char.ofNat 12

/-- Python `str.strip()`: drop leading and trailing whitespace. -/
def pyStrip (s : String) : String :=
  String.mk (((s.toList.dropWhile isPySpace).reverse.dropWhile isPySpace).reverse)

/-- The `DIFFICULTY = Literal["Easy", "Medium", "Hard"]` type of `schemas.py`. -/
inductive Difficulty where
  | Easy
  | Medium
  | Hard
deriving DecidableEq

/-- `DIFF_POINTS = {"Easy": 100, "Medium": 200, "Hard": 300}` from `main.py`. -/
def DIFF_POINTS : Difficulty → Nat
  | .Easy => 100
  | .Medium => 200
  | .Hard => 300

/-- `Ctfchallenge` model of `schemas.py`.  `points` is a `Nat` because the
pydantic field carries the validation constraint `ge=0`. -/
structure Ctfchallenge where
  challenge_id : String
  title : String
  category : String
  difficulty : Difficulty
  description : String
  hint : Option String
  flag : String
  points : Nat
deriving DecidableEq

/-- `Ctfsubmission` model of `schemas.py`.  `points_awarded` is an
unconstrained Python `int`, hence `Int`. -/
structure Ctfsubmission where
  challenge_id : String
  username : String
  submitted_flag : String
  correct : Bool
  points_awarded : Int
deriving DecidableEq

/-- The `SubmitPayload` request body of `main.py`. -/
structure SubmitPayload where
  challenge_id : String
  username : String
  flag : String
deriving DecidableEq

/-- The `{"correct": ..., "points": ...}` response of the submit handler. -/
structure SubmitResponse where
  correct : Bool
  points : Int
deriving DecidableEq

/-- The store state reachable by the submit handler: the `ctfchallenge`
and `ctfsubmission` collections, each in insertion (natural) order. -/
structure AppState where
  challenges : List Ctfchallenge
  submissions : List Ctfsubmission
deriving DecidableEq

/-- `db["ctfchallenge"].find_one({"challenge_id": cid})`: first document of
the collection, in natural order, whose `challenge_id` equals `cid`. -/
def find_one_challenge (cs : List Ctfchallenge) (cid : String) : Option Ctfchallenge :=
  cs.find? (fun c => c.challenge_id == cid)

/-- The `POST /api/ctf/submit` handler `submit_flag` of `main.py`.
`db = none` models an unreachable store (`db is None` in the code);
`writeFails` models `create_document` raising inside the `try` block.
The result pairs the HTTP outcome (`Except` over the status code) with
the post-state of the store. -/
def submit_flag (db : Option AppState) (p : SubmitPayload) (writeFails : Bool) :
    Except Nat SubmitResponse × Option AppState :=
  match db with
  | none => (.error 503, db)
  | some st =>
    match find_one_challenge st.challenges p.challenge_id with
    | none => (.error 404, db)
    | some ch =>
      let correct : Bool := pyStrip p.flag == ch.flag
      let points : Int := if correct then (ch.points : Int) else 0
      let sub : Ctfsubmission :=
        { challenge_id := p.challenge_id
          username := if pyStrip p.username = "" then "anonymous" else pyStrip p.username
          submitted_flag := p.flag
          correct := correct
          points_awarded := points }
      let st' := if writeFails then st else { st with submissions := st.submissions ++ [sub] }
      (.ok { correct := correct, points := points }, some st')

/-! ### Leaderboard aggregation

`leaderboard` runs the pipeline
`[{"$match": {"correct": True}}, {"$group": {"_id": "$username",
"points": {"$sum": "$points_awarded"}}}, {"$sort": {"points": -1}},
{"$limit": 20}]` over the `ctfsubmission` collection.  We instantiate
MongoDB's unspecified group order by first occurrence order of the
usernames and its sort by a stable insertion sort (ties are unspecified
in the store; any deterministic choice realises the pipeline). -/

/-- One row of the leaderboard response: `{"user": ..., "points": ...}`. -/
structure LBRow where
  user : String
  points : Int
deriving DecidableEq

/-- The `$match {"correct": True}` stage. -/
def correctSubs (subs : List Ctfsubmission) : List Ctfsubmission :=
  subs.filter (fun s => s.correct)

/-- The `$sum "$points_awarded"` accumulator of the `$group` stage for one
username. -/
def userTotal (subs : List Ctfsubmission) (u : String) : Int :=
  (((correctSubs subs).filter (fun s => s.username == u)).map
    (fun s => s.points_awarded)).sum

/-- The distinct group keys (`_id: "$username"`) of the `$group` stage. -/
def lbUsers (subs : List Ctfsubmission) : List String :=
  ((correctSubs subs).map (fun s => s.username)).dedup

/-- The output of the `$group` stage: one row per distinct username among
the correct submissions, carrying the summed points. -/
def lbGroups (subs : List Ctfsubmission) : List LBRow :=
  (lbUsers subs).map (fun u => { user := u, points := userTotal subs u })

/-- The `$sort {"points": -1}` order: non-increasing by points. -/
def lbLE (a b : LBRow) : Prop := b.points ≤ a.points

instance : DecidableRel lbLE := fun a b =>
  inferInstanceAs (Decidable (b.points ≤ a.points))

instance : IsTotal LBRow lbLE := ⟨fun a b => le_total b.points a.points⟩

instance : IsTrans LBRow lbLE := ⟨fun _ _ _ h1 h2 => le_trans h2 h1⟩

/-- The `GET /api/ctf/leaderboard` handler of `main.py`.  `db = none`
models an unavailable store (the `if db else []` guard); `aggFails`
models the aggregation raising, which the `except` clause turns into an
empty list. -/
def leaderboard (db : Option (List Ctfsubmission)) (aggFails : Bool) : List LBRow :=
  if aggFails then []
  else
    match db with
    | none => []
    | some subs => (List.insertionSort lbLE (lbGroups subs)).take 20

/-! ### Challenge listing

`list_challenges` manipulates raw store documents as dictionaries:
it pops the `flag` key and renames `_id` to a public string `id`.
We model a document as an association list with (per Python dict
semantics) unique keys. -/

/-- A value stored in a document field. -/
inductive Value where
  | str (s : String)
  | int (n : Int)
  | objectId (n : Nat)
  | null
deriving DecidableEq

/-- Python `str(...)` on a stored value; on a store-assigned `objectId`
it yields the identifier's string form. -/
def valueStr : Value → String
  | .str s => s
  | .int n => toString n
  | .objectId n => toString n
  | .null => "None"

/-- A store document: a Python dict as an ordered association list. -/
abbrev Doc := List (String × Value)

/-- The key list of a document. -/
def keys (d : Doc) : List String := d.map Prod.fst

/-- `d.get(k)` / `d[k]` lookup. -/
def dictGet? (d : Doc) (k : String) : Option Value :=
  (d.find? (fun kv => kv.1 == k)).map Prod.snd

/-- `d.pop(k, None)`: remove the entry for `k` if present. -/
def dictPop (d : Doc) (k : String) : Doc :=
  d.eraseP (fun kv => kv.1 == k)

/-- `d[k] = v`: overwrite in place when the key exists, else append. -/
def dictSet (d : Doc) (k : String) (v : Value) : Doc :=
  if (d.find? (fun kv => kv.1 == k)).isSome then
    d.map (fun kv => if kv.1 == k then (k, v) else kv)
  else
    d ++ [(k, v)]

/-- The loop body of `list_challenges`: `d.pop("flag", None)` followed by
`if "_id" in d: d["id"] = str(d.pop("_id"))`. -/
def cleanDoc (d : Doc) : Doc :=
  let d1 := dictPop d "flag"
  match dictGet? d1 "_id" with
  | some v => dictSet (dictPop d1 "_id") "id" (Value.str (valueStr v))
  | none => d1

/-- The `GET /api/ctf/challenges` handler of `main.py`.  The argument is
the outcome of `get_documents("ctfchallenge")`; an exception (store
unavailable) is the `.error` case and yields an empty list. -/
def list_challenges (fetch : Except Unit (List Doc)) : List Doc :=
  match fetch with
  | .error _ => []
  | .ok docs => docs.map cleanDoc

/-! ### Seeding -/

/-- The three fixed sample challenges inserted by `seed_challenges`. -/
def sampleChallenges : List Ctfchallenge :=
  [ { challenge_id := "web-101"
      title := "Login Bypass Basics"
      category := "Web"
      difficulty := .Easy
      description := "Bypass a weak login form using basic SQL injection techniques."
      hint := some "Try using logical operators to make a condition always true."
      flag := "FLAG{BAS1C_SQLI}"
      points := DIFF_POINTS .Easy }
  , { challenge_id := "crypto-201"
      title := "XOR Secrets"
      category := "Crypto"
      difficulty := .Medium
      description := "Recover a plaintext by analyzing repeated-key XOR."
      hint := some "Frequency analysis on XORed text can reveal the key."
      flag := "FLAG{X0R_K3Y}"
      points := DIFF_POINTS .Medium }
  , { challenge_id := "pwn-301"
      title := "Buffer Overflow Warmup"
      category := "Pwn"
      difficulty := .Hard
      description := "Exploit a classic stack buffer overflow to overwrite return address."
      hint := some "Understand calling conventions and NOP sleds."
      flag := "FLAG{0V3RFL0W}"
      points := DIFF_POINTS .Hard } ]

/-- The `seed_challenges` startup routine of `main.py`.  `db = none` is an
unreachable store (`db is None`); `countFails` models
`count_documents` raising (swallowed by the outer `except`);
`insertFails` models `create_document` raising for an individual sample
(swallowed by the inner `except`).  The function always returns the
resulting store state: the embedding of "seeding never raises". -/
def seed_challenges (db : Option (List Ctfchallenge)) (countFails : Bool)
    (insertFails : String → Bool) : Option (List Ctfchallenge) :=
  match db with
  | none => db
  | some cs =>
    if countFails then db
    else if cs.length = 0 then
      some (cs ++ sampleChallenges.filter (fun s => !(insertFails s.challenge_id)))
    else db

/-! ### Helper lemmas -/

theorem pyStrip_of_all_space (s : String) (h : ∀ c ∈ s.toList, isPySpace c = true) :
    pyStrip s = "" := by
  unfold pyStrip
  rw [List.dropWhile_eq_nil_iff.mpr h]
  rfl

theorem nodup_sample_ids_filter (p : Ctfchallenge → Bool) :
    ((sampleChallenges.filter p).map (fun c => c.challenge_id)).Nodup := by
  have hsub : ((sampleChallenges.filter p).map (fun c => c.challenge_id)).Sublist
      (sampleChallenges.map (fun c => c.challenge_id)) :=
    (List.filter_sublist _).map _
  exact List.Nodup.sublist hsub (by decide)

theorem lbGroups_map_user (subs : List Ctfsubmission) :
    (lbGroups subs).map LBRow.user = lbUsers subs := by
  unfold lbGroups
  rw [List.map_map]
  exact List.map_id _

theorem keys_cons (x : String × Value) (t : Doc) : keys (x :: t) = x.1 :: keys t := rfl

theorem not_mem_keys_dictPop_self (d : Doc) (k : String) (h : (keys d).Nodup) :
    k ∉ keys (dictPop d k) := by
  induction d with
  | nil => simp [dictPop, keys]
  | cons x t ih =>
    rw [keys_cons, List.nodup_cons] at h
    by_cases hk : x.1 = k
    · have hpop : dictPop (x :: t) k = t := by
        simp [dictPop, List.eraseP_cons, hk]
      rw [hpop, ← hk]
      exact h.1
    · have hpop : dictPop (x :: t) k = x :: dictPop t k := by
        simp [dictPop, List.eraseP_cons, hk]
      rw [hpop, keys_cons]
      intro hmem
      rcases List.mem_cons.mp hmem with he | hmem2
      · exact hk he.symm
      · exact ih h.2 hmem2

theorem mem_keys_dictPop_of_ne (d : Doc) (a k : String) (hne : a ≠ k) (h : a ∈ keys d) :
    a ∈ keys (dictPop d k) := by
  induction d with
  | nil => exact absurd h (by simp [keys])
  | cons x t ih =>
    rw [keys_cons, List.mem_cons] at h
    by_cases hk : x.1 = k
    · have hpop : dictPop (x :: t) k = t := by
        simp [dictPop, List.eraseP_cons, hk]
      rw [hpop]
      rcases h with he | hmem
      · exact absurd (he.trans hk) hne
      · exact hmem
    · have hpop : dictPop (x :: t) k = x :: dictPop t k := by
        simp [dictPop, List.eraseP_cons, hk]
      rw [hpop, keys_cons, List.mem_cons]
      rcases h with he | hmem
      · exact Or.inl he
      · exact Or.inr (ih hmem)

theorem keys_dictPop_sublist (d : Doc) (k : String) :
    (keys (dictPop d k)).Sublist (keys d) :=
  (List.eraseP_sublist d).map Prod.fst

theorem dictGet?_isSome_iff (d : Doc) (k : String) :
    (dictGet? d k).isSome ↔ k ∈ keys d := by
  unfold dictGet? keys
  have hmap : ∀ o : Option (String × Value), (o.map Prod.snd).isSome = o.isSome := by
    intro o
    cases o <;> rfl
  rw [hmap, List.find?_isSome, List.mem_map]
  constructor
  · rintro ⟨x, hx, hp⟩
    exact ⟨x, hx, (beq_iff_eq.mp hp)⟩
  · rintro ⟨x, hx, he⟩
    exact ⟨x, hx, beq_iff_eq.mpr he⟩

theorem find?_append_none {p : String × Value → Bool} (l l' : Doc)
    (h : l.find? p = none) : (l ++ l').find? p = l'.find? p := by
  induction l with
  | nil => rfl
  | cons x t ih =>
    rw [List.find?_cons] at h
    rw [List.cons_append, List.find?_cons]
    cases hp : p x with
    | true => simp [hp] at h
    | false =>
      simp only [hp] at h ⊢
      exact ih h

theorem find?_map_repl (d : Doc) (k : String) (v : Value)
    (h : ∃ x ∈ d, x.1 = k) :
    (d.map (fun kv => if kv.1 == k then (k, v) else kv)).find? (fun kv => kv.1 == k)
      = some (k, v) := by
  induction d with
  | nil => simp at h
  | cons x t ih =>
    by_cases hk : x.1 = k
    · simp [List.find?_cons, hk]
    · have hx : (if (x.1 == k) = true then (k, v) else x) = x := by
        simp [hk]
      rw [List.map_cons]
      rw [List.find?_cons]
      simp only [hx]
      have hpx : (x.1 == k) = false := beq_eq_false_iff_ne.mpr hk
      rw [hpx]
      apply ih
      rcases h with ⟨y, hy, hyk⟩
      rcases List.mem_cons.mp hy with he | hmem
      · exact absurd (he ▸ hyk) hk
      · exact ⟨y, hmem, hyk⟩

theorem dictGet?_dictSet_self (d : Doc) (k : String) (v : Value) :
    dictGet? (dictSet d k v) k = some v := by
  unfold dictSet dictGet?
  by_cases h : (d.find? (fun kv => kv.1 == k)).isSome
  · rw [if_pos h]
    obtain ⟨x, hx, hp⟩ := List.find?_isSome.mp h
    rw [find?_map_repl d k v ⟨x, hx, beq_iff_eq.mp hp⟩]
    rfl
  · rw [if_neg h]
    have hn : d.find? (fun kv => kv.1 == k) = none :=
      Option.not_isSome_iff_eq_none.mp h
    rw [find?_append_none d _ hn]
    simp [List.find?_cons]

theorem keys_map_repl (d : Doc) (k : String) (v : Value) :
    keys (d.map (fun kv => if kv.1 == k then (k, v) else kv)) = keys d := by
  induction d with
  | nil => rfl
  | cons x t ih =>
    rw [List.map_cons, keys_cons, keys_cons, ih]
    by_cases hk : x.1 = k
    · simp [hk]
    · simp [beq_eq_false_iff_ne.mpr hk]

theorem mem_keys_dictSet_imp (d : Doc) (k a : String) (v : Value)
    (h : a ∈ keys (dictSet d k v)) : a ∈ keys d ∨ a = k := by
  unfold dictSet at h
  by_cases hf : (d.find? (fun kv => kv.1 == k)).isSome
  · rw [if_pos hf, keys_map_repl] at h
    exact Or.inl h
  · rw [if_neg hf] at h
    unfold keys at h
    rw [List.map_append, List.mem_append] at h
    rcases h with h | h
    · exact Or.inl h
    · exact Or.inr (by simpa using h)

theorem cleanDoc_spec (d : Doc) (hnd : (keys d).Nodup) (hid : "_id" ∈ keys d) :
    "flag" ∉ keys (cleanDoc d) ∧ "id" ∈ keys (cleanDoc d) ∧
    ∃ w, dictGet? (dictPop d "flag") "_id" = some w ∧
      dictGet? (cleanDoc d) "id" = some (Value.str (valueStr w)) := by
  have hid1 : "_id" ∈ keys (dictPop d "flag") :=
    mem_keys_dictPop_of_ne d "_id" "flag" (by decide) hid
  obtain ⟨w, hw⟩ := Option.isSome_iff_exists.mp ((dictGet?_isSome_iff _ _).mpr hid1)
  have hclean : cleanDoc d
      = dictSet (dictPop (dictPop d "flag") "_id") "id" (Value.str (valueStr w)) := by
    simp only [cleanDoc, hw]
  have hfl1 : "flag" ∉ keys (dictPop d "flag") :=
    not_mem_keys_dictPop_self d "flag" hnd
  have hfl2 : "flag" ∉ keys (dictPop (dictPop d "flag") "_id") := fun hmem =>
    hfl1 ((keys_dictPop_sublist _ _).mem hmem)
  refine ⟨?_, ?_, w, hw, ?_⟩
  · rw [hclean]
    intro hmem
    rcases mem_keys_dictSet_imp _ _ _ _ hmem with h | h
    · exact hfl2 h
    · exact absurd h (by decide)
  · rw [hclean]
    refine (dictGet?_isSome_iff _ _).mp ?_
    rw [dictGet?_dictSet_self]
    rfl
  · rw [hclean, dictGet?_dictSet_self]

theorem cleanDoc_flag_irrelevant (a b : Doc) (v1 v2 : Value) (ha : "flag" ∉ keys a) :
    cleanDoc (a ++ ("flag", v1) :: b) = cleanDoc (a ++ ("flag", v2) :: b) := by
  have hnotp : ∀ y ∈ a, ¬((fun kv : String × Value => kv.1 == "flag") y = true) := by
    intro y hy hbeq
    exact ha (List.mem_map.mpr ⟨y, hy, beq_iff_eq.mp hbeq⟩)
  have h1 : ∀ v : Value, dictPop (a ++ ("flag", v) :: b) "flag" = a ++ b := by
    intro v
    unfold dictPop
    rw [List.eraseP_append_right _ hnotp, List.eraseP_cons]
    simp
  simp only [cleanDoc, h1 v1, h1 v2]

/-! ### Claims -/

/-- C1: for every submit call whose challenge id matches a stored challenge,
the response is the pair of a `correct` flag that is true exactly when the
whitespace-trimmed submitted flag is string-equal (case-sensitive) to the
stored challenge's flag, and of `points` equal to the challenge's points when
correct and 0 otherwise; the persisted submission record carries the same
`correct` and `points_awarded` values. -/
theorem C1_submit_judging (st : AppState) (p : SubmitPayload) (ch : Ctfchallenge)
    (hch : find_one_challenge st.challenges p.challenge_id = some ch) :
    ∃ resp st',
      submit_flag (some st) p false = (.ok resp, some st') ∧
      (resp.correct = true ↔ pyStrip p.flag = ch.flag) ∧
      resp.points = (if pyStrip p.flag = ch.flag then (ch.points : Int) else 0) ∧
      ∃ sub, st'.submissions = st.submissions ++ [sub] ∧
        sub.correct = resp.correct ∧ sub.points_awarded = resp.points := by
  have h : submit_flag (some st) p false =
      (.ok ⟨pyStrip p.flag == ch.flag, if pyStrip p.flag == ch.flag then (ch.points : Int) else 0⟩,
       some { st with submissions := st.submissions ++
         [⟨p.challenge_id, if pyStrip p.username = "" then "anonymous" else pyStrip p.username,
           p.flag, pyStrip p.flag == ch.flag,
           if pyStrip p.flag == ch.flag then (ch.points : Int) else 0⟩] }) := by
    simp [submit_flag, hch]
  refine ⟨_, _, h, ?_, ?_, _, rfl, rfl, rfl⟩
  · simp [beq_iff_eq]
  · simp only [beq_iff_eq]

theorem C1_witness :
    find_one_challenge sampleChallenges "web-101" = some (sampleChallenges.get ⟨0, by decide⟩) ∧
    (∃ resp st',
      submit_flag (some (AppState.mk sampleChallenges []))
          (SubmitPayload.mk "web-101" "alice" " FLAG{BAS1C_SQLI} ") false = (.ok resp, some st') ∧
      (resp.correct = true ↔
        pyStrip " FLAG{BAS1C_SQLI} " = (sampleChallenges.get ⟨0, by decide⟩).flag) ∧
      resp.points = (if pyStrip " FLAG{BAS1C_SQLI} " = (sampleChallenges.get ⟨0, by decide⟩).flag
        then ((sampleChallenges.get ⟨0, by decide⟩).points : Int) else 0) ∧
      ∃ sub, st'.submissions = [] ++ [sub] ∧
        sub.correct = resp.correct ∧ sub.points_awarded = resp.points) :=
  ⟨by decide, C1_submit_judging (AppState.mk sampleChallenges [])
    (SubmitPayload.mk "web-101" "alice" " FLAG{BAS1C_SQLI} ")
    (sampleChallenges.get ⟨0, by decide⟩) (by decide)⟩

/-- C2: the submit operation fails with status 503 exactly when the store is
unreachable, with status 404 exactly when no challenge matches the given
challenge id, and in every other case returns a normal response; no other
error is raised. -/
theorem C2_submit_error_cases (db : Option AppState) (p : SubmitPayload) (writeFails : Bool) :
    (submit_flag db p writeFails).1 =
      match db with
      | none => .error 503
      | some st =>
        match find_one_challenge st.challenges p.challenge_id with
        | none => .error 404
        | some ch =>
          .ok ⟨pyStrip p.flag == ch.flag,
               if pyStrip p.flag == ch.flag then (ch.points : Int) else 0⟩ := by
  cases db with
  | none => rfl
  | some st =>
    cases h : find_one_challenge st.challenges p.challenge_id <;>
      simp [submit_flag, h]

/-- C3: for every state of the submission store, the leaderboard is the
correct submissions grouped by username with `points_awarded` summed per
group, sorted non-increasing by that sum, truncated to the first 20 groups:
its length never exceeds 20, it is sorted non-increasing by points, every
row carries exactly its user's aggregated total, rows have pairwise distinct
users drawn from the correct submissions, and whenever fewer than 20 rows
are returned every user with a correct submission appears. -/
theorem C3_leaderboard_aggregation (subs : List Ctfsubmission) :
    (leaderboard (some subs) false).length ≤ 20 ∧
    List.Sorted lbLE (leaderboard (some subs) false) ∧
    (∀ r ∈ leaderboard (some subs) false,
      r.points = userTotal subs r.user ∧ r.user ∈ lbUsers subs) ∧
    ((leaderboard (some subs) false).map LBRow.user).Nodup ∧
    ((leaderboard (some subs) false).length < 20 →
      ∀ u ∈ lbUsers subs, ∃ r ∈ leaderboard (some subs) false, r.user = u) := by
  have hlb : leaderboard (some subs) false
      = (List.insertionSort lbLE (lbGroups subs)).take 20 := rfl
  have hsorted : List.Sorted lbLE (List.insertionSort lbLE (lbGroups subs)) :=
    List.sorted_insertionSort lbLE (lbGroups subs)
  have hperm : (List.insertionSort lbLE (lbGroups subs)).Perm (lbGroups subs) :=
    List.perm_insertionSort lbLE (lbGroups subs)
  refine ⟨?_, ?_, ?_, ?_, ?_⟩
  · rw [hlb, List.length_take]
    exact min_le_left _ _
  · rw [hlb]
    exact List.Pairwise.sublist (List.take_sublist _ _) hsorted
  · intro r hr
    rw [hlb] at hr
    have hr2 : r ∈ lbGroups subs := hperm.mem_iff.mp (List.take_subset _ _ hr)
    obtain ⟨u, hu, hueq⟩ := List.mem_map.mp hr2
    constructor
    · rw [← hueq]
    · rw [← hueq]
      exact hu
  · rw [hlb, List.map_take]
    refine List.Nodup.sublist (List.take_sublist _ _) ?_
    have : (List.insertionSort lbLE (lbGroups subs)).map LBRow.user
        |>.Perm ((lbGroups subs).map LBRow.user) := hperm.map _
    rw [this.nodup_iff, lbGroups_map_user]
    exact List.nodup_dedup _
  · intro hlen u hu
    rw [hlb, List.length_take] at hlen
    have hsl : (List.insertionSort lbLE (lbGroups subs)).length ≤ 20 := by
      rcases Nat.lt_or_ge (List.insertionSort lbLE (lbGroups subs)).length 20 with h | h
      · exact Nat.le_of_lt h
      · omega
    have htake : (List.insertionSort lbLE (lbGroups subs)).take 20
        = List.insertionSort lbLE (lbGroups subs) := List.take_of_length_le hsl
    refine ⟨⟨u, userTotal subs u⟩, ?_, rfl⟩
    rw [hlb, htake]
    exact hperm.mem_iff.mpr (List.mem_map_of_mem _ hu)

/-- C4: every challenge object returned by the list operation lacks the
`flag` field and carries an `id` field holding the string form of the
store-assigned `_id`; moreover the listing is unchanged when any stored
flag value is replaced, so no endpoint response exposes a challenge's flag
(the leaderboard reads only submissions and the submit response is a
boolean and an integer). -/
theorem C4_flag_never_exposed (ds : List Doc)
    (hnd : ∀ d ∈ ds, (keys d).Nodup)
    (hid : ∀ d ∈ ds, "_id" ∈ keys d) :
    (list_challenges (.ok ds) = ds.map cleanDoc) ∧
    (∀ d ∈ ds, "flag" ∉ keys (cleanDoc d) ∧ "id" ∈ keys (cleanDoc d) ∧
      ∃ w, dictGet? (dictPop d "flag") "_id" = some w ∧
        dictGet? (cleanDoc d) "id" = some (Value.str (valueStr w))) ∧
    (∀ a b v1 v2, "flag" ∉ keys a →
      cleanDoc (a ++ ("flag", v1) :: b) = cleanDoc (a ++ ("flag", v2) :: b)) :=
  ⟨rfl, fun d hd => cleanDoc_spec d (hnd d hd) (hid d hd),
   fun a b v1 v2 ha => cleanDoc_flag_irrelevant a b v1 v2 ha⟩

theorem C4_witness :
    (∀ d ∈ ([[("_id", Value.objectId 7), ("challenge_id", Value.str "web-101"),
        ("flag", Value.str "FLAG{BAS1C_SQLI}")]] : List Doc), (keys d).Nodup) ∧
    (∀ d ∈ ([[("_id", Value.objectId 7), ("challenge_id", Value.str "web-101"),
        ("flag", Value.str "FLAG{BAS1C_SQLI}")]] : List Doc), "_id" ∈ keys d) ∧
    ((list_challenges (.ok [[("_id", Value.objectId 7), ("challenge_id", Value.str "web-101"),
        ("flag", Value.str "FLAG{BAS1C_SQLI}")]])
      = ([[("_id", Value.objectId 7), ("challenge_id", Value.str "web-101"),
          ("flag", Value.str "FLAG{BAS1C_SQLI}")]] : List Doc).map cleanDoc) ∧
     (∀ d ∈ ([[("_id", Value.objectId 7), ("challenge_id", Value.str "web-101"),
         ("flag", Value.str "FLAG{BAS1C_SQLI}")]] : List Doc),
       "flag" ∉ keys (cleanDoc d) ∧ "id" ∈ keys (cleanDoc d) ∧
       ∃ w, dictGet? (dictPop d "flag") "_id" = some w ∧
         dictGet? (cleanDoc d) "id" = some (Value.str (valueStr w))) ∧
     (∀ a b v1 v2, "flag" ∉ keys a →
       cleanDoc (a ++ ("flag", v1) :: b) = cleanDoc (a ++ ("flag", v2) :: b))) :=
  ⟨by decide, by decide,
   C4_flag_never_exposed _ (by decide) (by decide)⟩

/-- C5: the read endpoints are fail-open: a store error on the challenge
listing yields an empty list, and the leaderboard yields an empty list both
when the store is unavailable and when the aggregation throws. -/
theorem C5_reads_fail_open :
    (list_challenges (.error ()) = []) ∧
    (∀ b, leaderboard none b = []) ∧
    (∀ db, leaderboard db true = []) := by
  refine ⟨rfl, ?_, ?_⟩
  · intro b
    cases b <;> rfl
  · intro db
    rfl

/-- C6: seeding an empty challenge collection inserts exactly the three
fixed sample challenges (ids web-101, crypto-201, pwn-301 with points 100,
200, 300 from the difficulty table), seeding a non-empty collection inserts
nothing, seeding never raises even when the store is unreachable or an
individual insert fails, and running seed twice never produces duplicate
challenge documents. -/
theorem C6_seed_behavior :
    (seed_challenges (some []) false (fun _ => false) = some sampleChallenges) ∧
    (sampleChallenges.map (fun c => (c.challenge_id, c.points))
      = [("web-101", 100), ("crypto-201", 200), ("pwn-301", 300)]) ∧
    (∀ c ∈ sampleChallenges, c.points = DIFF_POINTS c.difficulty) ∧
    (∀ cs cf f, cs ≠ [] → seed_challenges (some cs) cf f = some cs) ∧
    (∀ cf f, seed_challenges none cf f = none) ∧
    (∀ cf1 f1 cf2 f2,
      (((seed_challenges (seed_challenges (some []) cf1 f1) cf2 f2).getD []).map
        (fun c => c.challenge_id)).Nodup) := by
  refine ⟨by decide, by decide, by decide, ?_, ?_, ?_⟩
  · intro cs cf f h
    cases cs with
    | nil => exact absurd rfl h
    | cons c t => cases cf <;> simp [seed_challenges]
  · intro cf f
    rfl
  · intro cf1 f1 cf2 f2
    cases cf1 with
    | true =>
      cases cf2 with
      | true => simp [seed_challenges]
      | false =>
        simpa [seed_challenges] using
          nodup_sample_ids_filter (fun s => !(f2 s.challenge_id))
    | false =>
      cases cf2 with
      | true =>
        simpa [seed_challenges] using
          nodup_sample_ids_filter (fun s => !(f1 s.challenge_id))
      | false =>
        by_cases hl : (sampleChallenges.filter (fun s => !(f1 s.challenge_id))).length = 0
        · rw [List.length_eq_zero] at hl
          simpa [seed_challenges, hl] using
            nodup_sample_ids_filter (fun s => !(f2 s.challenge_id))
        · simpa [seed_challenges, hl] using
            nodup_sample_ids_filter (fun s => !(f1 s.challenge_id))

/-- C7: leaderboard totals are monotonic under new correct submissions:
appending one correct submission worth 100 points for user alice raises
alice's aggregated total by exactly 100 and leaves every other user's total
unchanged (in particular no total decreases). -/
theorem C7_leaderboard_monotonic (subs : List Ctfsubmission) (cid f u : String) :
    userTotal (subs ++ [⟨cid, "alice", f, true, 100⟩]) u
      = userTotal subs u + (if u = "alice" then 100 else 0) := by
  unfold userTotal correctSubs
  rw [List.filter_append, List.filter_append, List.map_append, List.sum_append]
  by_cases h : u = "alice"
  · subst h
    simp [List.filter]
  · have hne : ("alice" == u) = false := by
      rw [beq_eq_false_iff_ne]
      exact fun e => h e.symm
    simp [List.filter, hne, h]

/-- C8: the submission record stores the trimmed username, and a blank or
whitespace-only username is recorded as anonymous. -/
theorem C8_username_normalization (st : AppState) (p : SubmitPayload) (ch : Ctfchallenge)
    (hch : find_one_challenge st.challenges p.challenge_id = some ch) :
    ∃ resp st' sub,
      submit_flag (some st) p false = (.ok resp, some st') ∧
      st'.submissions = st.submissions ++ [sub] ∧
      sub.username = (if pyStrip p.username = "" then "anonymous" else pyStrip p.username) ∧
      ((∀ c ∈ p.username.toList, isPySpace c = true) → sub.username = "anonymous") := by
  refine ⟨⟨pyStrip p.flag == ch.flag, if pyStrip p.flag == ch.flag then (ch.points : Int) else 0⟩,
    { st with submissions := st.submissions ++
      [⟨p.challenge_id, if pyStrip p.username = "" then "anonymous" else pyStrip p.username,
        p.flag, pyStrip p.flag == ch.flag,
        if pyStrip p.flag == ch.flag then (ch.points : Int) else 0⟩] },
    ⟨p.challenge_id, if pyStrip p.username = "" then "anonymous" else pyStrip p.username,
      p.flag, pyStrip p.flag == ch.flag,
      if pyStrip p.flag == ch.flag then (ch.points : Int) else 0⟩,
    ?_, rfl, rfl, ?_⟩
  · simp [submit_flag, hch]
  · intro hsp
    simp [pyStrip_of_all_space p.username hsp]

theorem C8_witness :
    (find_one_challenge sampleChallenges "web-101" = some (sampleChallenges.get ⟨0, by decide⟩)) ∧
    (∃ resp st' sub,
      submit_flag (some (AppState.mk sampleChallenges [])) (SubmitPayload.mk "web-101" "  " "x") false
        = (.ok resp, some st') ∧
      st'.submissions = [] ++ [sub] ∧
      sub.username = (if pyStrip "  " = "" then "anonymous" else pyStrip "  ") ∧
      ((∀ c ∈ ("  " : String).toList, isPySpace c = true) → sub.username = "anonymous")) :=
  ⟨by decide, C8_username_normalization (AppState.mk sampleChallenges [])
    (SubmitPayload.mk "web-101" "  " "x") (sampleChallenges.get ⟨0, by decide⟩) (by decide)⟩

/-- C9: once the store-availability and challenge-existence checks pass, a
failure while persisting the submission record is swallowed: the operation
still returns the same computed response as a successful write and the
store is left unchanged. -/
theorem C9_write_failure_swallowed (st : AppState) (p : SubmitPayload) (ch : Ctfchallenge)
    (hch : find_one_challenge st.challenges p.challenge_id = some ch) :
    (submit_flag (some st) p true).1 = (submit_flag (some st) p false).1 ∧
    (∃ resp, (submit_flag (some st) p true).1 = .ok resp) ∧
    (submit_flag (some st) p true).2 = some st := by
  refine ⟨?_, ⟨⟨pyStrip p.flag == ch.flag,
      if pyStrip p.flag == ch.flag then (ch.points : Int) else 0⟩, ?_⟩, ?_⟩ <;>
    simp [submit_flag, hch]

theorem C9_witness :
    (find_one_challenge sampleChallenges "web-101" = some (sampleChallenges.get ⟨0, by decide⟩)) ∧
    ((submit_flag (some (AppState.mk sampleChallenges [])) (SubmitPayload.mk "web-101" "bob" "guess") true).1
        = (submit_flag (some (AppState.mk sampleChallenges [])) (SubmitPayload.mk "web-101" "bob" "guess") false).1 ∧
      (∃ resp, (submit_flag (some (AppState.mk sampleChallenges [])) (SubmitPayload.mk "web-101" "bob" "guess") true).1 = .ok resp) ∧
      (submit_flag (some (AppState.mk sampleChallenges [])) (SubmitPayload.mk "web-101" "bob" "guess") true).2
        = some (AppState.mk sampleChallenges [])) :=
  ⟨by decide, C9_write_failure_swallowed (AppState.mk sampleChallenges [])
    (SubmitPayload.mk "web-101" "bob" "guess") (sampleChallenges.get ⟨0, by decide⟩) (by decide)⟩

/-- C10: submit is atomic on error: whenever it fails (503 store
unavailable or 404 unknown challenge), the store post-state equals the
pre-state, so no submission document is created. -/
theorem C10_submit_atomic_on_error (db : Option AppState) (p : SubmitPayload)
    (writeFails : Bool) (e : Nat)
    (he : (submit_flag db p writeFails).1 = .error e) :
    (submit_flag db p writeFails).2 = db := by
  cases db with
  | none => rfl
  | some st =>
    cases h : find_one_challenge st.challenges p.challenge_id with
    | none => simp [submit_flag, h]
    | some ch => simp [submit_flag, h] at he

theorem C10_witness :
    ((submit_flag (some (AppState.mk sampleChallenges [])) (SubmitPayload.mk "no-such-id" "alice" "x") false).1
        = Except.error 404) ∧
    (submit_flag (some (AppState.mk sampleChallenges [])) (SubmitPayload.mk "no-such-id" "alice" "x") false).2
        = some (AppState.mk sampleChallenges []) :=
  ⟨by rfl, C10_submit_atomic_on_error (some (AppState.mk sampleChallenges []))
    (SubmitPayload.mk "no-such-id" "alice" "x") false 404 (by rfl)⟩

end CTF
